import Mathlib

/-! Verification of the Milestone Madness Slack bot repository.

Shallow embedding of the bot's command handlers, language-model gateway,
reminder scheduler, message de-duplication and database gateway, with
theorems settling the specified properties.  JavaScript strings are
modelled as Lean `String`/`List Char`; machine timestamps (JS `Date`
milliseconds) as `Int`; the random draw of `Math.random()` as a rational
`q` with `0 ≤ q < 1`; every fallible external call (OpenAI, Slack API,
PostgreSQL) as an `Except`-valued oracle passed in as an argument. -/

/-! ### JavaScript string primitives -/

/-- The character class of JavaScript `\s` (WhiteSpace ∪ LineTerminator),
used by `String.prototype.trim`, `parseInt` prefix stripping and the
regex escapes in `cleanupMarkdown`. -/
def jsSpace (c : Char) : Bool :=
  c = ' ' ∨ c = '\t' ∨ c = '\n' ∨ c = '\r' ∨ c = '\x0b' ∨ c = '\x0c' ∨
  c = ' ' ∨ c = ' ' ∨ (' ' ≤ c ∧ c ≤ ' ') ∨
  c = ' ' ∨ c = ' ' ∨ c = ' ' ∨ c = ' ' ∨
  c = '　' ∨ c = '﻿'

/-- JavaScript `String.prototype.trim` on a character list. -/
def jsTrimList (l : List Char) : List Char :=
  ((l.dropWhile jsSpace).reverse.dropWhile jsSpace).reverse

/-- JavaScript `String.prototype.trim`. -/
def jsTrim (s : String) : String := ⟨jsTrimList s.data⟩

/-- ASCII model of JavaScript `String.prototype.toLowerCase`. -/
def jsToLower (s : String) : String := ⟨s.data.map Char.toLower⟩

/-- Value of a decimal digit run, most significant first. -/
def decDigitsVal (l : List Char) : Nat :=
  l.foldl (fun a c => a * 10 + (c.toNat - '0'.toNat)) 0

/-- Whether `c` is a hexadecimal digit (for `parseInt`'s `0x` prefix). -/
def isHexDigitJs (c : Char) : Bool :=
  c.isDigit ∨ ('a' ≤ c ∧ c ≤ 'f') ∨ ('A' ≤ c ∧ c ≤ 'F')

/-- Value of a hexadecimal digit. -/
def hexDigitVal (c : Char) : Nat :=
  if c.isDigit then c.toNat - '0'.toNat
  else if 'a' ≤ c ∧ c ≤ 'f' then c.toNat - 'a'.toNat + 10
  else c.toNat - 'A'.toNat + 10

/-- Value of a hexadecimal digit run, most significant first. -/
def hexDigitsVal (l : List Char) : Nat :=
  l.foldl (fun a c => a * 16 + hexDigitVal c) 0

/-- JavaScript `parseInt(string)` with no radix argument: skip leading
whitespace, read an optional sign, auto-detect a `0x`/`0X` prefix
(radix 16) and otherwise parse the longest leading run of decimal
digits; `none` models `NaN`. -/
def jsParseInt (s : String) : Option Int :=
  let l := s.data.dropWhile jsSpace
  let (sign, l₁) : Int × List Char :=
    match l with
    | '-' :: t => (-1, t)
    | '+' :: t => (1, t)
    | t => (1, t)
  match l₁ with
  | '0' :: x :: t =>
    if x = 'x' ∨ x = 'X' then
      let ds := t.takeWhile isHexDigitJs
      if ds = [] then none else some (sign * hexDigitsVal ds)
    else
      let ds := ('0' :: x :: t).takeWhile Char.isDigit
      if ds = [] then none else some (sign * decDigitsVal ds)
  | l₂ =>
    let ds := l₂.takeWhile Char.isDigit
    if ds = [] then none else some (sign * decDigitsVal ds)

/-! ### `/convo` history limit (src/commands/convo.js, lines 20-28 and
169-176; both variants are textually identical here)

```js
let limit = 50; // Default message limit
if (command.text) {
  const parsedLimit = parseInt(command.text);
  if (!isNaN(parsedLimit) && parsedLimit > 0 && parsedLimit <= 100) {
    limit = parsedLimit;
  }
}
``` -/

/-- The message-history limit computed by `handleConvoCommand` from the
user-supplied `command.text`. -/
def convoMessageLimit (text : String) : Int :=
  let limit : Int := 50
  if text ≠ "" then
    match jsParseInt text with
    | none => limit
    | some parsedLimit =>
      if parsedLimit > 0 ∧ parsedLimit ≤ 100 then parsedLimit else limit
  else limit

example : convoMessageLimit "0" = 50 := by decide
example : convoMessageLimit "-3" = 50 := by decide
example : convoMessageLimit "37" = 37 := by decide
example : convoMessageLimit "150" = 50 := by decide
example : convoMessageLimit "abc" = 50 := by decide
example : jsParseInt "  -42xyz" = some (-42) := by decide

/-! ### Markdown cleanup (src/utils/ai.js, lines 172-230)

`cleanupMarkdown` performs twelve sequential JavaScript `replace` passes.
Each pass is embedded below as a fuel-indexed scanner over `List Char`
(fuel = length of the current text, enough for scanners that always
consume at least one character per emitted chunk); when the fuel runs
out the scanner returns its input unchanged, which never happens on the
top-level calls. -/

/-- Whether the list starts with the character `c`. -/
def headIs (c : Char) : List Char → Bool
  | [] => false
  | d :: _ => d = c

/-- Whether the list starts with a JS whitespace character. -/
def headSpace : List Char → Bool
  | [] => false
  | d :: _ => jsSpace d

/-- Step 1 (lines 176-179): if most characters sit on their own line
(`text.split('\n').length > text.length / 2`), join them by deleting
every newline (`text.replace(/\n/g, '')`). -/
def verticalFix (l : List Char) : List Char :=
  if 2 * (l.count '\n' + 1) > l.length then l.filter (· ≠ '\n') else l

/-- The literal paragraph marker `||PARAGRAPH||` of line 182. -/
def markerChars : List Char := "||PARAGRAPH||".data

/-- Leftmost, non-overlapping replacement of every occurrence of `pat`
by `rep` (JavaScript `replace(/pat/g, rep)` for a literal pattern). -/
def replaceAllGo (pat rep : List Char) : Nat → List Char → List Char
  | 0, l => l
  | _ + 1, [] => []
  | f + 1, c :: t =>
    if pat ≠ [] ∧ pat.isPrefixOf (c :: t) then
      rep ++ replaceAllGo pat rep f ((c :: t).drop pat.length)
    else c :: replaceAllGo pat rep f t

/-- Replace every occurrence of `pat` by `rep`. -/
def replaceAllList (pat rep l : List Char) : List Char :=
  replaceAllGo pat rep l.length l

/-- Step 2 (line 182): `text.replace(/\|\|PARAGRAPH\|\|/g, '\n\n')`. -/
def markerFix (l : List Char) : List Char :=
  replaceAllList markerChars ['\n', '\n'] l

/-- Step 3 (line 185): `text.replace(/\n{3,}/g, '\n\n')` — every maximal
run of three or more newlines becomes two. -/
def newlineRunGo : Nat → List Char → List Char
  | 0, l => l
  | _ + 1, [] => []
  | f + 1, c :: t =>
    if c = '\n' then
      let run := t.takeWhile (· = '\n')
      if run.length + 1 ≥ 3 then
        '\n' :: '\n' :: newlineRunGo f (t.drop run.length)
      else c :: newlineRunGo f t
    else c :: newlineRunGo f t

/-- Step 3 wrapper. -/
def newlineRunFix (l : List Char) : List Char := newlineRunGo l.length l

/-- Index of the last newline of `l`, if any. -/
def lastNl : List Char → Option Nat
  | [] => none
  | c :: t =>
    match lastNl t with
    | some i => some (i + 1)
    | none => if c = '\n' then some 0 else none

/-- Step 4 (line 186): `text.replace(/\n\s*\n/g, '\n\n')`.  A match is a
newline, then the greedy whitespace run backtracked to the last newline
it contains; scanning resumes after that newline. -/
def blankRunGo : Nat → List Char → List Char
  | 0, l => l
  | _ + 1, [] => []
  | f + 1, c :: t =>
    if c = '\n' then
      match lastNl (t.takeWhile jsSpace) with
      | some i => '\n' :: '\n' :: blankRunGo f (t.drop (i + 1))
      | none => c :: blankRunGo f t
    else c :: blankRunGo f t

/-- Step 4 wrapper. -/
def blankRunFix (l : List Char) : List Char := blankRunGo l.length l

/-- Lazy search for the closing `**` of `/\*\*(.*?)\*\*/`: the group may
not contain a newline (`.` does not match one); returns the group and
the rest after the closing marker. -/
def findBoldClose : List Char → Option (List Char × List Char)
  | [] => none
  | '*' :: '*' :: t => some ([], t)
  | c :: t =>
    if c = '\n' then none
    else (findBoldClose t).map (fun p => (c :: p.1, p.2))

/-- Step 5 (line 189): `text.replace(/\*\*(.*?)\*\*/g, '$1')`. -/
def boldGo : Nat → List Char → List Char
  | 0, l => l
  | _ + 1, [] => []
  | f + 1, c :: t =>
    if c = '*' ∧ headIs '*' t then
      match findBoldClose t.tail with
      | some (g, r) => g ++ boldGo f r
      | none => c :: boldGo f t
    else c :: boldGo f t

/-- Step 5 wrapper. -/
def boldFix (l : List Char) : List Char := boldGo l.length l

/-- Lazy search for the closing `*` of `/\*(.*?)\*/`. -/
def findItalClose : List Char → Option (List Char × List Char)
  | [] => none
  | '*' :: t => some ([], t)
  | c :: t =>
    if c = '\n' then none
    else (findItalClose t).map (fun p => (c :: p.1, p.2))

/-- Step 6 (line 192): `text.replace(/\*(.*?)\*/g, '$1')`. -/
def italGo : Nat → List Char → List Char
  | 0, l => l
  | _ + 1, [] => []
  | f + 1, c :: t =>
    if c = '*' then
      match findItalClose t with
      | some (g, r) => g ++ italGo f r
      | none => c :: italGo f t
    else c :: italGo f t

/-- Step 6 wrapper. -/
def italFix (l : List Char) : List Char := italGo l.length l

/-- Step 7 (line 195): `text.replace` of the global regex `---+` with
the empty string — every maximal run of three or more hyphens is
deleted. -/
def hyphenGo : Nat → List Char → List Char
  | 0, l => l
  | _ + 1, [] => []
  | f + 1, c :: t =>
    if c = '-' then
      let run := t.takeWhile (· = '-')
      if run.length + 1 ≥ 3 then hyphenGo f (t.drop run.length)
      else c :: hyphenGo f t
    else c :: hyphenGo f t

/-- Step 7 wrapper. -/
def hyphenFix (l : List Char) : List Char := hyphenGo l.length l

/-- Step 8 (line 198): `text.replace(/^#+\s+(.*)$/gm, '$1')`.  At a line
start, a run of `#` followed by at least one whitespace character (the
greedy `\s+` may span newlines) and the rest of that line are replaced
by the rest of the line.  The Bool argument tracks whether the scanner
stands at a `^` position. -/
def headerGo : Nat → Bool → List Char → List Char
  | 0, _, l => l
  | _ + 1, _, [] => []
  | f + 1, atStart, c :: t =>
    if atStart ∧ c = '#' then
      let hs := t.takeWhile (· = '#')
      let rest := t.drop hs.length
      if headSpace rest then
        let ws := rest.takeWhile jsSpace
        let rest₂ := rest.drop ws.length
        let content := rest₂.takeWhile (· ≠ '\n')
        content ++ headerGo f false (rest₂.drop content.length)
      else c :: headerGo f false t
    else c :: headerGo f (c = '\n') t

/-- Step 8 wrapper (`^` also matches the start of the string). -/
def headerFix (l : List Char) : List Char := headerGo l.length true l

/-- The replacement text of step 9, the source file's literal bytes
(a mojibake bullet). -/
def bulletChars : List Char := "â€¢ ".data

/-- Step 9 (line 201): `text.replace(/^\s*-\s+/gm, 'â€¢ ')`.  At a line
start, a (possibly empty, possibly newline-spanning) whitespace run,
a hyphen and a nonempty whitespace run are replaced by the bullet. -/
def bulletGo : Nat → Bool → List Char → List Char
  | 0, _, l => l
  | _ + 1, _, [] => []
  | f + 1, atStart, c :: t =>
    if atStart then
      let ws := (c :: t).takeWhile jsSpace
      let rest := (c :: t).drop ws.length
      if headIs '-' rest ∧ headSpace rest.tail then
        let ws₂ := rest.tail.takeWhile jsSpace
        bulletChars ++ bulletGo f (ws₂.getLast? = some '\n') (rest.tail.drop ws₂.length)
      else c :: bulletGo f (c = '\n') t
    else c :: bulletGo f (c = '\n') t

/-- Step 9 wrapper. -/
def bulletFix (l : List Char) : List Char := bulletGo l.length true l

/-- Step 10 (lines 204-207): `text.replace(/^\s*\d+\.\s+/gm, match =>
match)` — the replacer returns the match itself, so the pass is the
identity. -/
def numberedListFix (l : List Char) : List Char := l

/-- The ordered structured-element keywords of lines 210-220. -/
def structuredElements : List (List Char) :=
  ["Dear ".data, "Subject:".data, "To Whom It May Concern".data,
   "Best regards,".data, "Sincerely,".data, "Thank you,".data,
   "Regards,".data, "Yours truly,".data, "Warm regards,".data]

/-- One pass of line 224-225: `text.replace(new RegExp(`([^\n])` +
element, 'g'), `$1\n\n` + element)` — every occurrence of the element
preceded by a non-newline character gets a blank line inserted. -/
def elemGo (e : List Char) : Nat → List Char → List Char
  | 0, l => l
  | _ + 1, [] => []
  | f + 1, c :: t =>
    if c ≠ '\n' ∧ e.isPrefixOf t then
      c :: '\n' :: '\n' :: (e ++ elemGo e f (t.drop e.length))
    else c :: elemGo e f t

/-- Steps 11 (lines 222-226): the forEach over `structuredElements`. -/
def elemsFix (l : List Char) : List Char :=
  structuredElements.foldl (fun acc e => elemGo e acc.length acc) l

/-- `cleanupMarkdown`'s pipeline on a character list. -/
def cleanupList (l : List Char) : List Char :=
  jsTrimList (elemsFix (numberedListFix (bulletFix (headerFix (hyphenFix
    (italFix (boldFix (blankRunFix (newlineRunFix (markerFix
      (verticalFix l)))))))))))

/-- `cleanupMarkdown` (src/utils/ai.js lines 172-230): `if (!text)
return text;` then the twelve passes and the final `trim()`. -/
def cleanupMarkdown (s : String) : String :=
  if s = "" then s else ⟨cleanupList s.data⟩

example : cleanupMarkdown "**bold** and *ital*" = "bold and ital" := by decide
example : cleanupMarkdown "# Title\nbody" = "Title\nbody" := by decide
example : cleanupMarkdown "a ||PARAGRAPH|| b" = "a \n\n b" := by decide
example : cleanupMarkdown "- item" = "â€¢ item" := by decide
example : cleanupMarkdown "x---y" = "xy" := by decide
example : cleanupMarkdown "**a**\n**b**\n**c**" = "a\nb\nc" := by decide
example : cleanupMarkdown "a\nb\nc" = "abc" := by decide

/-! ### Fallback responses (src/utils/ai.js, lines 18-48) -/

/-- JavaScript `split(' ')` on a character list, keeping empty pieces. -/
def splitSpace : List Char → List (List Char)
  | [] => [[]]
  | c :: t =>
    if c = ' ' then [] :: splitSpace t
    else
      match splitSpace t with
      | [] => [[c]]
      | p :: ps => (c :: p) :: ps

/-- JavaScript `join(' ')`. -/
def joinSpace : List (List Char) → List Char
  | [] => []
  | [p] => p
  | p :: q :: ps => p ++ ' ' :: joinSpace (q :: ps)

/-- `userMessage.split(' ').slice(0, 5).join(' ')` — the first five
space-separated words of the message. -/
def firstFiveWords (m : String) : String :=
  ⟨joinSpace ((splitSpace m.data).take 5)⟩

/-- Line 25-26: the first five words plus an ellipsis when the message
has more than five. -/
def shortUserMessage (m : String) : String :=
  firstFiveWords m ++ (if (splitSpace m.data).length > 5 then "..." else "")

/-- `getFallbackResponse` (src/utils/ai.js lines 18-48): a generic
sentence for an empty or whitespace-only message, otherwise one of six
templates selected by `commandType.toLowerCase()` with the shortened
user message spliced in. -/
def getFallbackResponse (userMessage : String) (commandType : String) : String :=
  if userMessage = "" ∨ jsTrim userMessage = "" then
    "I'm sorry, I didn't receive any content to process. How can I help you today?"
  else
    let short := shortUserMessage userMessage
    let t := jsToLower commandType
    if t = "audit" then
      "I'd like to help you audit \"" ++ short ++ "\", but I'm having trouble connecting to my AI services right now. Please try again in a few minutes, or let me know if there's something else I can assist with."
    else if t = "draft" then
      "I'd be happy to help draft content related to \"" ++ short ++ "\", but I'm currently experiencing connection issues with my AI services. Please try again shortly, or let me know if there's another way I can help."
    else if t = "reminder" then
      "I'd like to help you set a reminder for \"" ++ short ++ "\", but I'm having trouble accessing my AI capabilities at the moment. Please try again soon, or feel free to ask for assistance with something else."
    else if t = "direct" then
      "Thanks for your message about \"" ++ short ++ "\". I'm currently having trouble connecting to my AI services. Please try again in a few minutes, or let me know if there's something else I can help with."
    else if t = "mention" then
      "I noticed you mentioned me regarding \"" ++ short ++ "\". I'm currently experiencing some technical difficulties with my AI capabilities. Please try again shortly, or let me know if there's another way I can assist you."
    else
      "I'd like to help with your request about \"" ++ short ++ "\", but I'm having trouble connecting to my AI services right now. Please try again in a few minutes, or let me know if there's something else I can assist with."

/-! ### Language-model gateway (src/utils/ai.js, lines 56-165)

`getAIResponse` is `async` but awaits its two OpenAI calls
sequentially; the embedding passes the outcome of the streaming request
and of the non-streaming retry in as `Except` values (`.error` = the
call threw), threads the process-wide `global.playlabApiStatus` record
explicitly, and counts the API requests issued.  Every throwing call in
the source is wrapped in a `try`, so the embedded function is total:
there is no failing result. -/

/-- The process-wide `global.playlabApiStatus` record (declared in the
serverless app entry): `{available, attempts, successes, lastAttempt,
lastSuccess, error}`. -/
structure ApiStatus where
  available : Bool
  attempts : Nat
  successes : Nat
  lastAttempt : Option Int
  lastSuccess : Option Int
  error : Option String
deriving DecidableEq, Repr

/-- The per-task system instruction selected on lines 66-97. -/
def systemMessageFor (commandType : String) : String :=
  let t := jsToLower commandType
  if t = "audit" then
    "You are an expert data analyst and business consultant helping perform an audit. Provide detailed, thoughtful analysis with clear recommendations. Format your response with clear sections and bullet points where appropriate."
  else if t = "draft" then
    "You are a professional content creator with expertise in business communications. Create well-structured, engaging content tailored to the specific request. Use appropriate tone, formatting, and structure for the content type."
  else if t = "reminder" then
    "You are a productivity and time management expert. Provide thoughtful analysis of tasks with realistic time estimates and breakdowns. Your advice should be practical, specific, and actionable."
  else if t = "direct" ∨ t = "mention" then
    "You are Milestone Madness, an AI assistant focused on helping with project management. Respond conversationally and be helpful, clear, and concise. If asked something you don't know, be honest about your limitations. If asked about capabilities, mention you can help with audits, drafts, reminders, and general questions."
  else
    "You are Milestone Madness, an AI assistant for project management. Be helpful, clear, and concise in your responses."

/-- Result of one `getAIResponse` call: the returned text, the updated
status record and how many OpenAI requests were issued. -/
structure AIResult where
  text : String
  status : ApiStatus
  requests : Nat
deriving Repr

/-- `getAIResponse` (src/utils/ai.js lines 56-165).  `streamResult` and
`retryResult` are the outcomes of the streaming request and of the
non-streaming retry (`.ok` carries the completion text); `now` is the
clock value stored into `lastAttempt`. -/
def getAIResponse (st : ApiStatus) (now : Int)
    (streamResult retryResult : Except String String)
    (prompt : String) (commandType : String) : AIResult :=
  if prompt = "" ∨ jsTrim prompt = "" then
    ⟨getFallbackResponse prompt commandType, st, 0⟩
  else
    let st₁ := { st with attempts := st.attempts + 1, lastAttempt := some now }
    match streamResult with
    | .ok fullResponse =>
      let st₂ := { st₁ with available := true, error := none }
      let cleaned := cleanupMarkdown (jsTrim fullResponse)
      ⟨if cleaned = "" then getFallbackResponse prompt commandType else cleaned, st₂, 1⟩
    | .error _ =>
      match retryResult with
      | .ok content =>
        let st₂ := { st₁ with available := true, error := none }
        ⟨cleanupMarkdown (jsTrim content), st₂, 2⟩
      | .error e₂ =>
        ⟨getFallbackResponse prompt commandType,
         { st₁ with available := false, error := some e₂ }, 2⟩

set_option maxRecDepth 2048 in
example : (getAIResponse ⟨true, 0, 0, none, none, none⟩ 5 (.error "boom")
    (.error "down") "write my report please now ok" "draft").text =
    "I'd be happy to help draft content related to \"write my report please now...\", but I'm currently experiencing connection issues with my AI services. Please try again shortly, or let me know if there's another way I can help." := by
  decide

/-! ### Reminder scheduler (src/commands/reminder.js)

Times are JavaScript `Date` values modelled as epoch milliseconds
(`Int`); the server runs on UTC, where `setDate(getDate() + 1)` adds
exactly 86 400 000 ms.  The `activeReminders` global object is an
association list threaded through the operations; the Slack API calls
are `Except`-valued oracles. -/

/-- Milliseconds of one calendar day (UTC). -/
def msPerDay : Int := 86400000

/-- The `{time, text}` object extracted from the model's JSON reply in
`parseReminderDateTime`. -/
structure ParsedReminder where
  time : Option Int
  text : String
deriving DecidableEq, Repr

/-- The past-time safeguard of `parseReminderDateTime` (src/commands/
reminder.js lines 43-52): if the extracted instant is strictly before
`now`, move it one day later (`reminderDate.setDate(reminderDate.
getDate() + 1)`); otherwise return it unchanged. -/
def applyPastTimeSafeguard (now : Int) (p : ParsedReminder) : ParsedReminder :=
  match p.time with
  | none => p
  | some t => if t < now then { p with time := some (t + msPerDay) } else p

/-- An entry of the `activeReminders` global object as stored by
`scheduleReminder` (src/commands/reminder.js lines 136-145). -/
structure ReminderEntry where
  id : String
  userId : String
  text : String
  time : Int
  channel : String
  scheduled_message_id : String
deriving DecidableEq, Repr

/-- JavaScript object read `activeReminders[k]`. -/
def objGet (m : List (String × ReminderEntry)) (k : String) : Option ReminderEntry :=
  (m.find? (fun p => p.1 = k)).map (·.2)

/-- JavaScript object write `activeReminders[k] = v`. -/
def objSet (m : List (String × ReminderEntry)) (k : String) (v : ReminderEntry) :
    List (String × ReminderEntry) :=
  (k, v) :: m.filter (fun p => p.1 ≠ k)

/-- JavaScript `delete activeReminders[k]`. -/
def objDel (m : List (String × ReminderEntry)) (k : String) :
    List (String × ReminderEntry) :=
  m.filter (fun p => p.1 ≠ k)

/-- The argument object of `scheduleReminder`. -/
structure ReminderData where
  userId : String
  text : String
  time : Int
  channel : String
deriving DecidableEq, Repr

/-- The value `scheduleReminder` resolves with (lines 147-151). -/
structure SchedOk where
  id : String
  text : String
  time : Int
deriving DecidableEq, Repr

/-- `scheduleReminder` (src/commands/reminder.js lines 97-156): rejects
a requested time not strictly after `now` by throwing `'Cannot set
reminder for a time in the past'`; otherwise calls
`chat.scheduleMessage` (the oracle `api`, whose `.ok` carries the
returned `scheduled_message_id`), records the reminder in
`activeReminders`, and resolves.  A thrown error is the `.error` case;
the second component is the `activeReminders` object after the call. -/
def scheduleReminder (now : Int) (data : ReminderData)
    (api : Except String String) (acts : List (String × ReminderEntry)) :
    Except String SchedOk × List (String × ReminderEntry) :=
  let timeUntilReminder := data.time - now
  if timeUntilReminder ≤ 0 then
    (.error "Cannot set reminder for a time in the past", acts)
  else
    let timestamp := Int.fdiv data.time 1000
    match api with
    | .error e => (.error ("Failed to schedule reminder: " ++ e), acts)
    | .ok rid =>
      (.ok ⟨rid, data.text, timestamp⟩,
       objSet acts rid ⟨rid, data.userId, data.text, data.time, data.channel, rid⟩)

/-- `deleteReminder` (src/commands/reminder.js lines 442-460): calls
`chat.deleteScheduledMessage` (the oracle `api`); on success removes the
entry from `activeReminders` and tells the user it was deleted; on
failure leaves the object unchanged and reports the error message.
Returns the text said to the user and the updated object. -/
def deleteReminder (userId : String) (api : Except String Unit)
    (acts : List (String × ReminderEntry)) (scheduledMessageId : String) :
    String × List (String × ReminderEntry) :=
  match api with
  | .ok _ =>
    ("<@" ++ userId ++ "> Your reminder has been deleted.",
     objDel acts scheduledMessageId)
  | .error e =>
    ("<@" ++ userId ++ "> Sorry, I couldn't delete that reminder: " ++ e, acts)

/-! ### Database gateway (src/utils/database.js, lines 180-250)

The result of `dbManager.query` is passed in as an `Except`-valued
oracle (`.error` = the query threw); `Row` is the opaque row type of
the `pg` driver; `avail` is `checkDbAvailable()` — whether the pool
exists. -/

/-- A `pg` query result: the `rows` array and `rowCount`. -/
structure QueryRes (Row : Type) where
  rows : List Row
  rowCount : Nat

/-- `getRoadmapData` (lines 190-203): `null` when the pool is missing
or the `SELECT` throws, else the first row or `null`. -/
def getRoadmapData {Row : Type} (avail : Bool)
    (q : Except String (QueryRes Row)) : Option Row :=
  if ¬ avail then none
  else
    match q with
    | .error _ => none
    | .ok result => result.rows.head?

/-- `listRoadmapProjects` (lines 206-218): the empty collection when the
pool is missing or the `SELECT` throws, else all rows. -/
def listRoadmapProjects {Row : Type} (avail : Bool)
    (q : Except String (QueryRes Row)) : List Row :=
  if ¬ avail then []
  else
    match q with
    | .error _ => []
    | .ok result => result.rows

/-- `updateRoadmapData` (lines 221-250): `null` when the pool is missing
or any of the three queries (existence `SELECT`, then `UPDATE` or
`INSERT`) throws, else the first returned row or `null`. -/
def updateRoadmapData {Row : Type} (avail : Bool)
    (qSelect qUpdate qInsert : Except String (QueryRes Row)) : Option Row :=
  if ¬ avail then none
  else
    match qSelect with
    | .error _ => none
    | .ok existingRecord =>
      if existingRecord.rowCount > 0 then
        match qUpdate with
        | .error _ => none
        | .ok result => result.rows.head?
      else
        match qInsert with
        | .error _ => none
        | .ok result => result.rows.head?

/-! ### Free-text intent classification and handlers

The `Math.floor(Math.random() * list.length)` draw is modelled by a
rational `q` (the value of `Math.random()`, so `0 ≤ q < 1`) mapped
through `pickIdx`. -/

/-- `Math.floor(q * n)` as a list index. -/
def pickIdx (q : ℚ) (n : ℕ) : ℕ := (⌊q * n⌋).toNat

/-- A draw of `0` picks the first element. -/
theorem pickIdx_zero (n : ℕ) : pickIdx 0 n = 0 := by
  simp [pickIdx]

/-- Search for the first occurrence of `w`; returns the rest after it. -/
def dropAfterSub (w : List Char) : List Char → Option (List Char)
  | [] => if w = [] then some [] else none
  | c :: t =>
    if w.isPrefixOf (c :: t) then some ((c :: t).drop w.length)
    else dropAfterSub w t

/-- Whether `w` occurs as a contiguous substring. -/
def containsSub (w l : List Char) : Bool := (dropAfterSub w l).isSome

/-- Whether the literal words `ws` occur in order (a regex alternative
of the form `w₁.*w₂.*…*wₖ`; `.` does not match a newline, so all words
and gaps must sit within one line). -/
def seqInLine : List (List Char) → List Char → Bool
  | [], _ => true
  | w :: ws, l =>
    match dropAfterSub w l with
    | some r => seqInLine ws r
    | none => false

/-- Split at newlines (for per-line regex matching). -/
def splitNl : List Char → List (List Char)
  | [] => [[]]
  | c :: t =>
    if c = '\n' then [] :: splitNl t
    else
      match splitNl t with
      | [] => [[c]]
      | p :: ps => (c :: p) :: ps

/-- An unanchored regex test for an alternation of `.*`-separated
literal-word sequences: some line contains some alternative's words in
order. -/
def regexAltTest (alts : List (List (List Char))) (l : List Char) : Bool :=
  (splitNl l).any (fun line => alts.any (fun seq => seqInLine seq line))

/-- The five alternatives of app.js line 100:
`what.*can't.*do|what.*cant.*do|what.*not.*able.*do|what.*limitations|
is.*anything.*can't.*do`. -/
def canDoAlts : List (List (List Char)) :=
  [["what".data, "can't".data, "do".data],
   ["what".data, "cant".data, "do".data],
   ["what".data, "not".data, "able".data, "do".data],
   ["what".data, "limitations".data],
   ["is".data, "anything".data, "can't".data, "do".data]]

/-- Strip `/<@[A-Z0-9]+>/g` (app.js line 97): remove every `<@`,
capital-alphanumeric run, `>` group. -/
def stripSlackMentions : Nat → List Char → List Char
  | 0, l => l
  | _ + 1, [] => []
  | f + 1, c :: t =>
    if c = '<' ∧ headIs '@' t then
      let run := t.tail.takeWhile (fun d => d.isUpper ∨ d.isDigit)
      if run ≠ [] ∧ headIs '>' (t.tail.drop run.length) then
        stripSlackMentions f (t.tail.drop (run.length + 1))
      else c :: stripSlackMentions f t
    else c :: stripSlackMentions f t

/-- The nine snarky responses of app.js lines 102-112. -/
def snarkyResponses : List String :=
  ["I can't tolerate missed deadlines... *glares in project manager*",
   "I can't convince your team that 'we'll figure it out as we go' is a solid project strategy.",
   "I can't make your unrealistic timeline realistic. Even my AI powers have limits.",
   "I can't magically turn your last-minute changes into 'part of the original plan.'",
   "I can't read minds... yet. Still waiting for that firmware update.",
   "I can't join you for happy hour, which is truly my greatest limitation.",
   "I can't explain to executives why good software takes time to build.",
   "I can't make your stakeholders understand what 'agile' actually means.",
   "I can't turn your one-page spec into a fully working enterprise system by Friday."]

/-- What the app.js message handler (lines 94-143) replies for a direct
message or bot mention: the processed lower-case text is tested against
the snarky pattern first; on a match one of the nine snarky responses
is posted (prefixed by the asker) and no model call is made, otherwise
the text goes to the language model (`ai` is that reply). -/
structure MsgReply where
  text : String
  aiCalled : Bool
deriving DecidableEq, Repr

/-- The processed text of app.js line 97: mentions stripped, trimmed,
lower-cased. -/
def appMessageUserText (text : String) : String :=
  jsToLower (jsTrim ⟨stripSlackMentions text.data.length text.data⟩)

/-- The app.js `app.message` handler body for an eligible message,
lines 97-143 (the reply and whether a model call is made). -/
def appMessageReply (user text : String) (q : ℚ) (ai : String) : MsgReply :=
  let userMessage := appMessageUserText text
  if regexAltTest canDoAlts userMessage.data then
    let randomResponse := snarkyResponses.getD (pickIdx q 9) ""
    ⟨"<@" ++ user ++ "> asked what I can't do... " ++ randomResponse, false⟩
  else ⟨ai, true⟩

/-- The five witty responses of draft.js (messages.js) lines 180-186. -/
def wittyResponses : List String :=
  ["I can't make a decent cup of coffee, but I can help you organize your project milestones! ☕️",
   "I can't solve the mysteries of the universe, but I can definitely help you draft that project proposal! 🌌",
   "I can't join your team happy hour, but I can help you schedule it! 🍻",
   "I can't beat you at ping pong, but I can help you track your tournament milestones! 🏓",
   "I can't write your code for you, but I can help you plan your development sprints! 💻"]

/-- The mention handler's pattern (line 176):
`/is there anything you (can('t|not)|cannot) do/i`. -/
def mentionCanDoTest (s : String) : Bool :=
  let low := (jsToLower s).data
  containsSub "is there anything you can't do".data low ∨
  containsSub "is there anything you cannot do".data low

/-! ### In-flight de-duplication (src/commands/draft.js, messages.js
variant with `processingMessages`, lines 60-135 and 141-228)

The handlers are embedded as transitions on the `processingMessages`
set (a list of message timestamps).  Slack posting calls can throw;
their outcomes are the Booleans of `PostOutcomes`.  `getAIResponse`
never throws (see above), so the only error paths are platform posts.
This variant registers no `setTimeout` cleanup, which the
`delayedCleanup` field records. -/

/-- An inbound message/mention event (`message.ts`, `message.text`,
`message.channel`); a missing field is `none`. -/
structure SlackMessage where
  ts : Option String
  text : Option String
  channel : String
deriving DecidableEq, Repr

/-- Outcomes of the Slack posting calls a handler run may make. -/
structure PostOutcomes where
  thinkingOk : Bool
  updateOk : Bool
  fallbackPostOk : Bool
  directPostOk : Bool
deriving DecidableEq, Repr

/-- How a handler invocation ended. -/
inductive HandlerOutcome
  | skippedInvalid
  | skippedDuplicate
  | completed
  | errored
deriving DecidableEq, Repr

/-- Result of one handler run: the `processingMessages` set afterwards,
how the run ended, and whether any delayed removal was registered. -/
structure DedupResult where
  procSet : List String
  outcome : HandlerOutcome
  delayedCleanup : Bool
deriving DecidableEq, Repr

/-- `handleDirectMessage` (draft.js lines 65-136), restricted to its
effect on `processingMessages`: invalid events are ignored; an id
already in flight is skipped; the id is added, the thinking message /
update / fallback posts run, and the id is removed only when the run
reaches the final cleanup — an uncaught post error jumps to the outer
catch, which never removes it. -/
def handleDirectMessage (procSet : List String) (message : SlackMessage)
    (oc : PostOutcomes) : DedupResult :=
  match message.ts, message.text with
  | some ts, some txt =>
    if txt = "" then ⟨procSet, .skippedInvalid, false⟩
    else if ts ∈ procSet then ⟨procSet, .skippedDuplicate, false⟩
    else
      let s₁ := procSet ++ [ts]
      if oc.thinkingOk then
        if oc.updateOk then ⟨s₁.filter (· ≠ ts), .completed, false⟩
        else if oc.fallbackPostOk then ⟨s₁.filter (· ≠ ts), .completed, false⟩
        else ⟨s₁, .errored, false⟩
      else
        if oc.directPostOk then ⟨s₁.filter (· ≠ ts), .completed, false⟩
        else ⟨s₁, .errored, false⟩
  | _, _ => ⟨procSet, .skippedInvalid, false⟩

/-- `handleAppMention` (draft.js lines 141-228): same `processingMessages`
bookkeeping as `handleDirectMessage`, and the reply is the witty canned
answer (no model call) when the de-mentioned text matches the pattern,
else the model's reply. -/
structure MentionRunResult where
  procSet : List String
  outcome : HandlerOutcome
  reply : String
  aiCalled : Bool
  delayedCleanup : Bool
deriving DecidableEq, Repr

/-- The de-mentioned text of draft.js lines 169-171: the bot mention
stripped, trimmed, `'?'` if empty. -/
def mentionUserText (botUserId txt : String) : String :=
  let stripped := jsTrim ⟨replaceAllList ("<@" ++ botUserId ++ ">").data [] txt.data⟩
  if stripped = "" then "?" else stripped

/-- `handleAppMention` (draft.js lines 141-228). -/
def handleAppMention (procSet : List String) (event : SlackMessage)
    (botUserId : String) (oc : PostOutcomes) (q : ℚ) (ai : String) :
    MentionRunResult :=
  match event.ts, event.text with
  | some ts, some txt =>
    if txt = "" then ⟨procSet, .skippedInvalid, "", false, false⟩
    else if ts ∈ procSet then ⟨procSet, .skippedDuplicate, "", false, false⟩
    else
      let s₁ := procSet ++ [ts]
      let userText := mentionUserText botUserId txt
      let (reply, aiCalled) :=
        if mentionCanDoTest userText then (wittyResponses.getD (pickIdx q 5) "", false)
        else (ai, true)
      if oc.thinkingOk then
        if oc.updateOk then ⟨s₁.filter (· ≠ ts), .completed, reply, aiCalled, false⟩
        else if oc.fallbackPostOk then ⟨s₁.filter (· ≠ ts), .completed, reply, aiCalled, false⟩
        else ⟨s₁, .errored, reply, aiCalled, false⟩
      else
        if oc.directPostOk then ⟨s₁.filter (· ≠ ts), .completed, reply, aiCalled, false⟩
        else ⟨s₁, .errored, reply, aiCalled, false⟩
  | _, _ => ⟨procSet, .skippedInvalid, "", false, false⟩

example :
    (appMessageReply "U1" "hey <@U0BOT> what can't you do??" 0 "x").aiCalled = false := by
  decide
example :
    (appMessageReply "U1" "what is the plan" 0 "x") = ⟨"x", true⟩ := by
  decide
example :
    (handleAppMention [] ⟨some "11.22", some "<@B7> is there anything you cannot do", "C1"⟩
      "B7" ⟨true, true, true, true⟩ 0 "x").reply =
    "I can't make a decent cup of coffee, but I can help you organize your project milestones! ☕️" := by
  simp only [handleAppMention, pickIdx_zero]
  decide

/-! ### Helper lemmas for the association-list object -/

/-- Reading a key just written returns the written entry. -/
theorem objGet_objSet_self (m : List (String × ReminderEntry)) (k : String)
    (v : ReminderEntry) : objGet (objSet m k v) k = some v := by
  simp [objGet, objSet]

/-- Reading a key just deleted returns nothing. -/
theorem objGet_objDel_self (m : List (String × ReminderEntry)) (k : String) :
    objGet (objDel m k) k = none := by
  induction m with
  | nil => rfl
  | cons p t ih =>
    by_cases h : p.1 = k <;>
      simp_all [objGet, objDel, List.filter_cons, List.find?]

/-! ### C1: `/convo` limit -/

/-- C1, counterexample: the claim says a limit argument above 100 is
clamped to 100, but `handleConvoCommand` only accepts a parsed value in
1..100 and otherwise keeps the default: `"150"` parses to 150 (which
exceeds 100) and yields a fetch limit of 50, not 100. -/
theorem C1_convo_limit_counterexample :
    jsParseInt "150" = some 150 ∧ (150 : Int) > 100 ∧
    convoMessageLimit "150" = 50 ∧ convoMessageLimit "150" ≠ 100 := by
  decide

/-- C1 (amended): for a user-supplied `/convo` limit argument that
parses to `n`, the history fetch limit is 50 when `n ≤ 0`, `n` itself
when `1 ≤ n ≤ 100`, and falls back to the default 50 (it is not clamped
to 100) when `n > 100`. -/
theorem C1_convo_limit (text : String) (n : Int)
    (hp : jsParseInt text = some n) (ht : text ≠ "") :
    (n ≤ 0 → convoMessageLimit text = 50) ∧
    (1 ≤ n → n ≤ 100 → convoMessageLimit text = n) ∧
    (100 < n → convoMessageLimit text = 50) := by
  unfold convoMessageLimit
  simp only [ht, if_true, hp, ne_eq, not_false_iff]
  refine ⟨fun h => ?_, fun h₁ h₂ => ?_, fun h => ?_⟩
  · rw [if_neg]; omega
  · rw [if_pos]; omega
  · rw [if_neg]; omega

/-- C1, witness: an in-range argument is used as the limit. -/
theorem C1_convo_limit_witness : convoMessageLimit "42" = 42 := by
  have h := C1_convo_limit "42" 42 (by decide) (by decide)
  exact h.2.1 (by norm_num) (by norm_num)

/-! ### C4: rejecting past reminder times -/

/-- C4: `scheduleReminder` rejects every requested absolute time that is
not strictly in the future by throwing `'Cannot set reminder for a time
in the past'`, leaving `activeReminders` unchanged (in particular a
requested time of `now - 1000` ms); a requested time of `now + 1000` ms
passes the guard, and when the platform call succeeds the reminder is
scheduled and recorded. -/
theorem C4_schedule_past_rejected (now : Int) (data : ReminderData)
    (api : Except String String) (acts : List (String × ReminderEntry)) :
    (data.time ≤ now →
      scheduleReminder now data api acts =
        (.error "Cannot set reminder for a time in the past", acts)) ∧
    (data.time = now + 1000 → ∀ rid, api = .ok rid →
      (scheduleReminder now data api acts).1 =
        .ok ⟨rid, data.text, Int.fdiv data.time 1000⟩ ∧
      objGet (scheduleReminder now data api acts).2 rid =
        some ⟨rid, data.userId, data.text, data.time, data.channel, rid⟩) := by
  constructor
  · intro h
    unfold scheduleReminder
    rw [if_pos (by omega)]
  · intro h rid hapi
    unfold scheduleReminder
    rw [if_neg (by omega), hapi]
    exact ⟨rfl, objGet_objSet_self ..⟩

/-- C4, witness: at `now = 0`, a requested time of `-1000` ms (one
second in the past) fails with the past-time error and the state is
unchanged; a requested time of `+1000` ms (one second in the future)
succeeds and is recorded. -/
theorem C4_schedule_past_rejected_witness :
    scheduleReminder 0 ⟨"U1", "submit report", -1000, "C1"⟩ (.ok "SM1") [] =
      (.error "Cannot set reminder for a time in the past", []) ∧
    (scheduleReminder 0 ⟨"U1", "submit report", 1000, "C1"⟩ (.ok "SM1") []).1 =
      .ok ⟨"SM1", "submit report", Int.fdiv 1000 1000⟩ ∧
    objGet (scheduleReminder 0 ⟨"U1", "submit report", 1000, "C1"⟩ (.ok "SM1") []).2
        "SM1" =
      some ⟨"SM1", "U1", "submit report", 1000, "C1", "SM1"⟩ := by
  refine ⟨(C4_schedule_past_rejected 0 ⟨"U1", "submit report", -1000, "C1"⟩
      (.ok "SM1") []).1 (by norm_num), ?_, ?_⟩
  · exact ((C4_schedule_past_rejected 0 ⟨"U1", "submit report", 1000, "C1"⟩
      (.ok "SM1") []).2 (by norm_num) "SM1" rfl).1
  · exact ((C4_schedule_past_rejected 0 ⟨"U1", "submit report", 1000, "C1"⟩
      (.ok "SM1") []).2 (by norm_num) "SM1" rfl).2

/-! ### C5: the past-time one-day shift -/

/-- C5, counterexample: the claim says shifting a past instant forward
by one day enforces that the returned `reminder_time` is in the future;
with `now` two days past the epoch and an extracted instant of 0, the
safeguard returns `msPerDay`, which is still strictly in the past. -/
theorem C5_past_shift_counterexample :
    (0 : Int) < 2 * msPerDay ∧
    (applyPastTimeSafeguard (2 * msPerDay) ⟨some 0, "submit report"⟩).time =
      some msPerDay ∧
    msPerDay < 2 * msPerDay := by
  refine ⟨by norm_num [msPerDay], ?_, by norm_num [msPerDay]⟩
  simp [applyPastTimeSafeguard, msPerDay]

/-- C5 (amended): whenever the extracted instant `t` lies strictly in
the past of `now`, `parseReminderDateTime`'s safeguard shifts it forward
by exactly one day; the result is in the future only when `t` was less
than one day old — an instant at least one day in the past stays in the
past, so the future-time invariant is not enforced. -/
theorem C5_past_shift (now t : Int) (txt : String) (h : t < now) :
    (applyPastTimeSafeguard now ⟨some t, txt⟩).time = some (t + msPerDay) ∧
    (now - t < msPerDay → now < t + msPerDay) ∧
    (msPerDay ≤ now - t → t + msPerDay ≤ now) := by
  refine ⟨?_, fun h₁ => by omega, fun h₂ => by omega⟩
  simp [applyPastTimeSafeguard, h]

/-- C5, witness: an instant 1000 ms in the past moves one day forward,
into the future. -/
theorem C5_past_shift_witness :
    (applyPastTimeSafeguard 1000 ⟨some 0, "submit report"⟩).time =
      some (0 + msPerDay) ∧ (1000 : Int) < 0 + msPerDay := by
  have h := C5_past_shift 1000 0 "submit report" (by norm_num)
  exact ⟨h.1, h.2.1 (by norm_num [msPerDay])⟩

/-! ### C9: empty-prompt short-circuit -/

/-- C9: for every task tag and every status record, calling
`getAIResponse` with an empty or whitespace-only prompt returns the
fixed generic fallback sentence, makes no OpenAI request, and leaves
the API-health status record untouched. -/
theorem C9_empty_prompt (st : ApiStatus) (now : Int)
    (streamResult retryResult : Except String String)
    (prompt tag : String) (h : jsTrim prompt = "") :
    getAIResponse st now streamResult retryResult prompt tag =
      ⟨"I'm sorry, I didn't receive any content to process. How can I help you today?",
       st, 0⟩ := by
  unfold getAIResponse getFallbackResponse
  rw [if_pos (Or.inr h), if_pos (Or.inr h)]

/-- C9, witness: a whitespace-only prompt under the `audit` tag, with a
live status record, yields the generic sentence, zero requests and the
same record. -/
theorem C9_empty_prompt_witness :
    getAIResponse ⟨true, 3, 2, some 7, some 7, none⟩ 9 (.ok "hi") (.ok "hi")
        "  \t " "audit" =
      ⟨"I'm sorry, I didn't receive any content to process. How can I help you today?",
       ⟨true, 3, 2, some 7, some 7, none⟩, 0⟩ :=
  C9_empty_prompt ⟨true, 3, 2, some 7, some 7, none⟩ 9 (.ok "hi") (.ok "hi")
    "  \t " "audit" (by decide)

/-! ### C10: `activeReminders` tracks live reminders -/

/-- C10: when `scheduleReminder` resolves successfully with a result
whose id is `r`, `activeReminders[r]` holds the requested user id,
text, time and channel; after a successful `deleteReminder` of `r`, the
key `r` is absent. -/
theorem C10_active_reminders (now : Int) (data : ReminderData)
    (api : Except String String) (acts : List (String × ReminderEntry))
    (res : SchedOk) (h : (scheduleReminder now data api acts).1 = .ok res) :
    objGet (scheduleReminder now data api acts).2 res.id =
      some ⟨res.id, data.userId, data.text, data.time, data.channel, res.id⟩ ∧
    ∀ (userId : String),
      objGet (deleteReminder userId (.ok ()) (scheduleReminder now data api acts).2
          res.id).2 res.id = none := by
  unfold scheduleReminder at h ⊢
  by_cases hpast : data.time - now ≤ 0
  · rw [if_pos hpast] at h
    simp at h
  · rw [if_neg hpast] at h ⊢
    cases api with
    | error e => simp at h
    | ok rid =>
      simp only [Except.ok.injEq] at h
      subst h
      refine ⟨objGet_objSet_self .., fun userId => ?_⟩
      simp [deleteReminder, objGet_objDel_self]

/-- C10, witness: a concrete successful schedule and delete. -/
theorem C10_active_reminders_witness :
    objGet (scheduleReminder 0 ⟨"U1", "submit report", 1000, "C1"⟩ (.ok "SM1") []).2
        "SM1" =
      some ⟨"SM1", "U1", "submit report", 1000, "C1", "SM1"⟩ ∧
    objGet (deleteReminder "U1" (.ok ())
        (scheduleReminder 0 ⟨"U1", "submit report", 1000, "C1"⟩ (.ok "SM1") []).2
        "SM1").2 "SM1" = none := by
  have h := C10_active_reminders 0 ⟨"U1", "submit report", 1000, "C1"⟩ (.ok "SM1")
    [] ⟨"SM1", "submit report", 1⟩ rfl
  exact ⟨h.1, h.2 "U1"⟩

/-! ### C7: database error sentinels -/

/-- C7: the database gateway operations never propagate a query error:
whenever the pool is unavailable or any underlying query throws,
`getRoadmapData` and `updateRoadmapData` return `none` (JS `null`) and
`listRoadmapProjects` returns the empty collection — for every input
row type and every failure point, including a failure of the second
query inside `updateRoadmapData`. -/
theorem C7_db_error_sentinels :
    (∀ (Row : Type) (q : Except String (QueryRes Row)),
       getRoadmapData false q = none) ∧
    (∀ (Row : Type) (e : String),
       getRoadmapData true (.error e : Except String (QueryRes Row)) = none) ∧
    (∀ (Row : Type) (q : Except String (QueryRes Row)),
       listRoadmapProjects false q = []) ∧
    (∀ (Row : Type) (e : String),
       listRoadmapProjects true (.error e : Except String (QueryRes Row)) = []) ∧
    (∀ (Row : Type) (q₁ q₂ q₃ : Except String (QueryRes Row)),
       updateRoadmapData false q₁ q₂ q₃ = none) ∧
    (∀ (Row : Type) (e : String) (q₂ q₃ : Except String (QueryRes Row)),
       updateRoadmapData true (.error e) q₂ q₃ = none) ∧
    (∀ (Row : Type) (ex : QueryRes Row) (e : String)
       (q₃ : Except String (QueryRes Row)), ex.rowCount > 0 →
       updateRoadmapData true (.ok ex) (.error e) q₃ = none) ∧
    (∀ (Row : Type) (ex : QueryRes Row) (e : String)
       (q₂ : Except String (QueryRes Row)), ex.rowCount = 0 →
       updateRoadmapData true (.ok ex) q₂ (.error e) = none) := by
  refine ⟨fun Row q => rfl, fun Row e => rfl, fun Row q => rfl, fun Row e => rfl,
    fun Row q₁ q₂ q₃ => rfl, fun Row e q₂ q₃ => rfl,
    fun Row ex e q₃ h => ?_, fun Row ex e q₂ h => ?_⟩
  · simp [updateRoadmapData, h]
  · simp [updateRoadmapData, h]

/-- C7, witness: the two conditional sentinel cases at concrete query
results (a row type of `Nat`). -/
theorem C7_db_error_sentinels_witness :
    updateRoadmapData true (.ok (⟨[7], 1⟩ : QueryRes Nat)) (.error "boom")
      (.ok ⟨[7], 1⟩) = none ∧
    updateRoadmapData true (.ok (⟨[], 0⟩ : QueryRes Nat)) (.ok ⟨[7], 1⟩)
      (.error "boom") = none := by
  refine ⟨C7_db_error_sentinels.2.2.2.2.2.2.1 Nat ⟨[7], 1⟩ "boom" (.ok ⟨[7], 1⟩)
    (by norm_num), C7_db_error_sentinels.2.2.2.2.2.2.2 Nat ⟨[], 0⟩ "boom"
    (.ok ⟨[7], 1⟩) rfl⟩

/-! ### C6: in-flight de-duplication -/

/-- Specification of `handleDirectMessage`'s set bookkeeping: duplicates
are skipped, a completed run removes the id, an errored run leaves the
id in the set with no delayed cleanup registered. -/
theorem handleDirectMessage_spec (procSet : List String) (msg : SlackMessage)
    (oc : PostOutcomes) (ts txt : String)
    (hts : msg.ts = some ts) (htxt : msg.text = some txt) (hne : txt ≠ "") :
    (ts ∈ procSet →
      handleDirectMessage procSet msg oc = ⟨procSet, .skippedDuplicate, false⟩) ∧
    ((handleDirectMessage procSet msg oc).outcome = .completed →
      ts ∉ (handleDirectMessage procSet msg oc).procSet) ∧
    ((handleDirectMessage procSet msg oc).outcome = .errored →
      ts ∈ (handleDirectMessage procSet msg oc).procSet ∧
      (handleDirectMessage procSet msg oc).delayedCleanup = false) := by
  obtain ⟨thinkingOk, updateOk, fallbackOk, directOk⟩ := oc
  unfold handleDirectMessage
  rw [hts, htxt]
  simp only [if_neg hne]
  by_cases hmem : ts ∈ procSet
  · rw [if_pos hmem]
    exact ⟨fun _ => rfl, by simp, by simp⟩
  · rw [if_neg hmem]
    cases thinkingOk <;> cases updateOk <;> cases fallbackOk <;> cases directOk <;>
      simp [hmem, List.mem_filter]

/-- Analogue of `handleDirectMessage_spec` for `handleAppMention`. -/
theorem handleAppMention_spec (procSet : List String) (ev : SlackMessage)
    (botUserId : String) (oc : PostOutcomes) (q : ℚ) (ai : String)
    (ts txt : String)
    (hts : ev.ts = some ts) (htxt : ev.text = some txt) (hne : txt ≠ "") :
    (ts ∈ procSet → handleAppMention procSet ev botUserId oc q ai =
      ⟨procSet, .skippedDuplicate, "", false, false⟩) ∧
    ((handleAppMention procSet ev botUserId oc q ai).outcome = .completed →
      ts ∉ (handleAppMention procSet ev botUserId oc q ai).procSet) ∧
    ((handleAppMention procSet ev botUserId oc q ai).outcome = .errored →
      ts ∈ (handleAppMention procSet ev botUserId oc q ai).procSet ∧
      (handleAppMention procSet ev botUserId oc q ai).delayedCleanup = false) := by
  obtain ⟨thinkingOk, updateOk, fallbackOk, directOk⟩ := oc
  unfold handleAppMention
  rw [hts, htxt]
  simp only [if_neg hne]
  by_cases hmem : ts ∈ procSet
  · rw [if_pos hmem]
    exact ⟨fun _ => rfl, by simp, by simp⟩
  · rw [if_neg hmem]
    cases thinkingOk <;> cases updateOk <;> cases fallbackOk <;> cases directOk <;>
      simp [hmem, List.mem_filter]

/-- C6, counterexample: the claim says every in-flight identifier is
removed on completion or after a fixed delay, so none remains
permanently; but in this variant an uncaught Slack post error (here:
the thinking message posts, the update fails, the fallback post also
fails) reaches the outer catch, which never removes the identifier, and
no delayed removal is ever registered — the id stays in the set. -/
theorem C6_inflight_counterexample :
    (handleDirectMessage [] ⟨some "1700000000.000100", some "hello", "D1"⟩
        ⟨true, false, false, true⟩).outcome = .errored ∧
    "1700000000.000100" ∈
      (handleDirectMessage [] ⟨some "1700000000.000100", some "hello", "D1"⟩
        ⟨true, false, false, true⟩).procSet ∧
    (handleDirectMessage [] ⟨some "1700000000.000100", some "hello", "D1"⟩
        ⟨true, false, false, true⟩).delayedCleanup = false := by
  decide

/-- C6 (amended): for every valid inbound message or mention event, the
identifier is in the in-flight set while handling runs (a second
concurrent handling of the same identifier is skipped), and the entry
is removed on successful completion of handling; this variant registers
no delayed removal, and when an uncaught platform post error aborts the
run the identifier stays in the set. -/
theorem C6_inflight_dedup (procSet : List String) (msg ev : SlackMessage)
    (oc oc' : PostOutcomes) (botUserId : String) (q : ℚ) (ai : String)
    (ts txt ts' txt' : String)
    (hts : msg.ts = some ts) (htxt : msg.text = some txt) (hne : txt ≠ "")
    (hts' : ev.ts = some ts') (htxt' : ev.text = some txt') (hne' : txt' ≠ "") :
    (ts ∈ procSet →
      handleDirectMessage procSet msg oc = ⟨procSet, .skippedDuplicate, false⟩) ∧
    ((handleDirectMessage procSet msg oc).outcome = .completed →
      ts ∉ (handleDirectMessage procSet msg oc).procSet) ∧
    ((handleDirectMessage procSet msg oc).outcome = .errored →
      ts ∈ (handleDirectMessage procSet msg oc).procSet ∧
      (handleDirectMessage procSet msg oc).delayedCleanup = false) ∧
    (ts' ∈ procSet → handleAppMention procSet ev botUserId oc' q ai =
      ⟨procSet, .skippedDuplicate, "", false, false⟩) ∧
    ((handleAppMention procSet ev botUserId oc' q ai).outcome = .completed →
      ts' ∉ (handleAppMention procSet ev botUserId oc' q ai).procSet) ∧
    ((handleAppMention procSet ev botUserId oc' q ai).outcome = .errored →
      ts' ∈ (handleAppMention procSet ev botUserId oc' q ai).procSet ∧
      (handleAppMention procSet ev botUserId oc' q ai).delayedCleanup = false) := by
  obtain ⟨h₁, h₂, h₃⟩ := handleDirectMessage_spec procSet msg oc ts txt hts htxt hne
  obtain ⟨h₄, h₅, h₆⟩ :=
    handleAppMention_spec procSet ev botUserId oc' q ai ts' txt' hts' htxt' hne'
  exact ⟨h₁, h₂, h₃, h₄, h₅, h₆⟩

/-- C6, witness: a fresh message completes and its id leaves the set; a
duplicate of an in-flight id is skipped. -/
theorem C6_inflight_dedup_witness :
    ("1.2" ∈ ["1.2"] →
      handleDirectMessage ["1.2"] ⟨some "1.2", some "hi", "D1"⟩
        ⟨true, true, true, true⟩ = ⟨["1.2"], .skippedDuplicate, false⟩) ∧
    ((handleDirectMessage [] ⟨some "9.9", some "hi", "D1"⟩
        ⟨true, true, true, true⟩).outcome = .completed →
      "9.9" ∉ (handleDirectMessage [] ⟨some "9.9", some "hi", "D1"⟩
        ⟨true, true, true, true⟩).procSet) := by
  refine ⟨(C6_inflight_dedup ["1.2"] ⟨some "1.2", some "hi", "D1"⟩
      ⟨some "1.2", some "hi", "D1"⟩ ⟨true, true, true, true⟩
      ⟨true, true, true, true⟩ "B" 0 "x" "1.2" "hi" "1.2" "hi"
      rfl rfl (by decide) rfl rfl (by decide)).1,
    (C6_inflight_dedup [] ⟨some "9.9", some "hi", "D1"⟩
      ⟨some "9.9", some "hi", "D1"⟩ ⟨true, true, true, true⟩
      ⟨true, true, true, true⟩ "B" 0 "x" "9.9" "hi" "9.9" "hi"
      rfl rfl (by decide) rfl rfl (by decide)).2.1⟩

/-! ### C8: canned snarky/witty responses -/

/-- `Math.floor(q * n)` lands on `i` exactly on the interval
`[i/n, (i+1)/n)` — the uniformity of the index draw. -/
theorem pickIdx_eq_iff (q : ℚ) (n i : ℕ) (h0 : 0 ≤ q) (hn : 0 < n) :
    pickIdx q n = i ↔ (i : ℚ) / n ≤ q ∧ q < ((i : ℚ) + 1) / n := by
  have hfl : (0 : ℤ) ≤ ⌊q * (n : ℚ)⌋ := Int.floor_nonneg.mpr (by positivity)
  have hn' : (0 : ℚ) < n := by exact_mod_cast hn
  have key : pickIdx q n = i ↔ ⌊q * (n : ℚ)⌋ = (i : ℤ) := by
    unfold pickIdx
    omega
  rw [key, Int.floor_eq_iff, div_le_iff₀ hn', lt_div_iff₀ hn']
  push_cast
  constructor <;> rintro ⟨ha, hb⟩ <;> exact ⟨by linarith, by linarith⟩

/-- The drawn index is always in range. -/
theorem pickIdx_lt (q : ℚ) (n : ℕ) (h1 : q < 1) (hn : 0 < n) :
    pickIdx q n < n := by
  have hn' : (0 : ℚ) < n := by exact_mod_cast hn
  have hfl : ⌊q * (n : ℚ)⌋ < (n : ℤ) := by
    rw [Int.floor_lt]
    push_cast
    nlinarith
  unfold pickIdx
  omega

/-- An in-range `getD` read is a member of the list. -/
theorem getD_mem_of_lt :
    ∀ (l : List String) (n : ℕ) (d : String), n < l.length → l.getD n d ∈ l
  | a :: t, 0, _, _ => List.mem_cons_self a t
  | a :: t, n + 1, d, h =>
    List.mem_cons_of_mem a (getD_mem_of_lt t n d (by simpa using h))

/-- C8, counterexample: the claim says every message matching the
"what can't you do" intent pattern gets one of NINE snarky strings with
probability 1/9 each; but the app-mention handler (draft.js lines
175-191) answers its own `is there anything you (can't|cannot) do`
pattern from a list of FIVE witty strings — the concrete mention
"is there anything you cannot do" is answered with a witty string that
is not among the nine snarky ones, and the canned list has length 5,
so each string is drawn with probability 1/5, not 1/9. -/
theorem C8_snarky_counterexample :
    mentionCanDoTest (mentionUserText "B7" "is there anything you cannot do") =
      true ∧
    (handleAppMention [] ⟨some "1.2", some "is there anything you cannot do", "C1"⟩
        "B7" ⟨true, true, true, true⟩ 0 "x").reply ∉ snarkyResponses ∧
    (handleAppMention [] ⟨some "1.2", some "is there anything you cannot do", "C1"⟩
        "B7" ⟨true, true, true, true⟩ 0 "x").aiCalled = false ∧
    wittyResponses.length = 5 := by
  refine ⟨by decide, ?_, ?_, by decide⟩ <;>
    · simp only [handleAppMention, pickIdx_zero]
      decide

/-- C8 (amended): a free-text message matching the "what can't you do"
intent pattern of app.js is answered, without any language-model call,
with one of the NINE hardcoded snarky strings, the index drawn by
`Math.floor(Math.random() * 9)` — uniform, each index's preimage being
an interval of length 1/9; an app mention matching the mention
handler's "is there anything you can't do" pattern is answered, without
any model call, with one of FIVE witty strings drawn uniformly with
probability 1/5 each. -/
theorem C8_snarky_uniform (user text : String) (q : ℚ) (ai : String)
    (procSet : List String) (ev : SlackMessage) (botUserId : String)
    (oc : PostOutcomes) (ts txt : String)
    (h0 : 0 ≤ q) (h1 : q < 1)
    (hmatch : regexAltTest canDoAlts (appMessageUserText text).data = true)
    (hts : ev.ts = some ts) (htxt : ev.text = some txt) (hne : txt ≠ "")
    (hnotin : ts ∉ procSet)
    (hm : mentionCanDoTest (mentionUserText botUserId txt) = true) :
    appMessageReply user text q ai =
      ⟨"<@" ++ user ++ "> asked what I can't do... " ++
        snarkyResponses.getD (pickIdx q 9) "", false⟩ ∧
    snarkyResponses.getD (pickIdx q 9) "" ∈ snarkyResponses ∧
    snarkyResponses.length = 9 ∧
    (∀ i : ℕ, pickIdx q 9 = i ↔ (i : ℚ) / 9 ≤ q ∧ q < ((i : ℚ) + 1) / 9) ∧
    (∀ i : ℕ, ((i : ℚ) + 1) / 9 - (i : ℚ) / 9 = 1 / 9) ∧
    (handleAppMention procSet ev botUserId oc q ai).reply =
      wittyResponses.getD (pickIdx q 5) "" ∧
    (handleAppMention procSet ev botUserId oc q ai).aiCalled = false ∧
    wittyResponses.getD (pickIdx q 5) "" ∈ wittyResponses ∧
    wittyResponses.length = 5 ∧
    (∀ i : ℕ, pickIdx q 5 = i ↔ (i : ℚ) / 5 ≤ q ∧ q < ((i : ℚ) + 1) / 5) ∧
    (∀ i : ℕ, ((i : ℚ) + 1) / 5 - (i : ℚ) / 5 = 1 / 5) := by
  obtain ⟨thinkingOk, updateOk, fallbackOk, directOk⟩ := oc
  have hmention :
      (handleAppMention procSet ev botUserId
          ⟨thinkingOk, updateOk, fallbackOk, directOk⟩ q ai).reply =
        wittyResponses.getD (pickIdx q 5) "" ∧
      (handleAppMention procSet ev botUserId
          ⟨thinkingOk, updateOk, fallbackOk, directOk⟩ q ai).aiCalled = false := by
    unfold handleAppMention
    rw [hts, htxt]
    simp only [if_neg hne, if_neg hnotin, hm, if_true]
    cases thinkingOk <;> cases updateOk <;> cases fallbackOk <;> cases directOk <;>
      simp
  have hlen9 : pickIdx q 9 < snarkyResponses.length := by
    have h9 := pickIdx_lt q 9 h1 (by norm_num)
    simpa [snarkyResponses] using h9
  have hlen5 : pickIdx q 5 < wittyResponses.length := by
    have h5 := pickIdx_lt q 5 h1 (by norm_num)
    simpa [wittyResponses] using h5
  refine ⟨?_, getD_mem_of_lt _ _ _ hlen9, rfl,
    fun i => pickIdx_eq_iff q 9 i h0 (by norm_num), fun i => by ring,
    hmention.1, hmention.2,
    getD_mem_of_lt _ _ _ hlen5, rfl,
    fun i => pickIdx_eq_iff q 5 i h0 (by norm_num), fun i => by ring⟩
  simp only [appMessageReply, hmatch, if_true]

/-- C8, witness: with a draw of 0, a matching message gets the first
snarky string and a matching mention gets the first witty string. -/
theorem C8_snarky_uniform_witness :
    appMessageReply "U1" "hey what can't you do" 0 "x" =
      ⟨"<@U1> asked what I can't do... I can't tolerate missed deadlines... *glares in project manager*",
       false⟩ ∧
    (handleAppMention [] ⟨some "1.2", some "is there anything you cannot do", "C1"⟩
        "B7" ⟨true, true, true, true⟩ 0 "x").reply =
      "I can't make a decent cup of coffee, but I can help you organize your project milestones! ☕️" := by
  have h := C8_snarky_uniform "U1" "hey what can't you do" 0 "x" []
    ⟨some "1.2", some "is there anything you cannot do", "C1"⟩ "B7"
    ⟨true, true, true, true⟩ "1.2" "is there anything you cannot do"
    (by norm_num) (by norm_num) (by decide) rfl rfl (by decide)
    (by decide) (by decide)
  constructor
  · rw [h.1, pickIdx_zero]
    decide
  · rw [h.2.2.2.2.2.1, pickIdx_zero]
    decide

/-! ### C2: the task-tagged fallback on double failure -/

/-- `split(' ')` never returns an empty list of pieces. -/
theorem splitSpace_ne_nil (l : List Char) : splitSpace l ≠ [] := by
  cases l with
  | nil => simp [splitSpace]
  | cons c t =>
    unfold splitSpace
    by_cases h : c = ' '
    · simp [h]
    · simp only [if_neg h]
      cases hsp : splitSpace t <;> simp

/-- `join(' ')` inverts `split(' ')`. -/
theorem joinSpace_splitSpace (l : List Char) : joinSpace (splitSpace l) = l := by
  induction l with
  | nil => rfl
  | cons c t ih =>
    unfold splitSpace
    by_cases h : c = ' '
    · subst h
      rw [if_pos rfl]
      cases hsp : splitSpace t with
      | nil => exact absurd hsp (splitSpace_ne_nil t)
      | cons p ps =>
        rw [hsp] at ih
        simp [joinSpace, ih]
    · rw [if_neg h]
      cases hsp : splitSpace t with
      | nil => exact absurd hsp (splitSpace_ne_nil t)
      | cons p ps =>
        rw [hsp] at ih
        cases ps with
        | nil => simpa [joinSpace] using ih
        | cons q qs => simpa [joinSpace] using ih

/-- Joining a prefix of the pieces yields a prefix of the join. -/
theorem joinSpace_take_pre (ps : List (List Char)) :
    ∀ k, ∃ rest, joinSpace (ps.take k) ++ rest = joinSpace ps := by
  induction ps with
  | nil => exact fun k => ⟨[], by simp [joinSpace]⟩
  | cons p pt ih =>
    intro k
    cases k with
    | zero => exact ⟨joinSpace (p :: pt), by simp [joinSpace]⟩
    | succ k₁ =>
      cases pt with
      | nil => exact ⟨[], by simp [joinSpace]⟩
      | cons q qt =>
        cases k₁ with
        | zero => exact ⟨' ' :: joinSpace (q :: qt), by simp [joinSpace]⟩
        | succ k₂ =>
          obtain ⟨r, hr⟩ := ih (k₂ + 1)
          refine ⟨r, ?_⟩
          simp only [List.take, joinSpace] at hr ⊢
          rw [List.append_assoc, List.cons_append, hr]

/-- `containsSub` unfolds on a cons. -/
theorem containsSub_cons (w : List Char) (c : Char) (t : List Char) :
    containsSub w (c :: t) = (w.isPrefixOf (c :: t) || containsSub w t) := by
  simp only [containsSub]
  rw [show dropAfterSub w (c :: t) =
      (if w.isPrefixOf (c :: t) then some ((c :: t).drop w.length)
       else dropAfterSub w t) from rfl]
  by_cases h : w.isPrefixOf (c :: t) <;> simp [h]

/-- Any list of the shape `a ++ w ++ b` contains `w`. -/
theorem containsSub_append_mid (a w b : List Char) :
    containsSub w (a ++ w ++ b) = true := by
  induction a with
  | nil =>
    simp only [List.nil_append]
    have hpre : w.isPrefixOf (w ++ b) = true := by
      rw [List.isPrefixOf_iff_prefix]
      exact List.prefix_append w b
    cases hwb : w ++ b with
    | nil =>
      have hw : w = [] := (List.append_eq_nil.mp hwb).1
      subst hw
      simp [containsSub, dropAfterSub]
    | cons y ys =>
      rw [containsSub_cons, ← hwb, hpre]
      rfl
  | cons c a₁ ih =>
    simp only [List.cons_append]
    rw [containsSub_cons, ih]
    simp

/-- A string of the shape `A ++ (pre ++ ell) ++ B` contains `pre`. -/
theorem str_shape_contains (A B pre ell : String) :
    containsSub pre.data (A ++ (pre ++ ell) ++ B).data = true := by
  simp only [String.data_append, List.append_assoc]
  have h := containsSub_append_mid A.data pre.data (ell.data ++ B.data)
  simpa [List.append_assoc] using h

/-- A string with a nonempty first chunk is nonempty. -/
theorem str_shape_ne_empty (A B x : String) (hA : A.data ≠ []) :
    A ++ x ++ B ≠ "" := by
  intro h
  apply hA
  have hd := congrArg String.data h
  simp only [String.data_append, List.append_assoc, List.append_eq_nil] at hd
  exact hd.1

/-- Strings with different prefixes of some length differ. -/
theorem ne_of_take_ne (a b : String) (n : ℕ)
    (h : a.data.take n ≠ b.data.take n) : a ≠ b := by
  intro he
  exact h (by rw [he])

/-- The six task tags of the gateway (`message` is the default). -/
def canonicalTags : List String :=
  ["audit", "draft", "reminder", "direct", "mention", "message"]

/-- The `audit` branch of `getFallbackResponse` for a nonempty message. -/
theorem fb_eq_audit (m : String) (hm : ¬(m = "" ∨ jsTrim m = "")) :
    getFallbackResponse m "audit" =
      "I'd like to help you audit \"" ++ shortUserMessage m ++ "\", but I'm having trouble connecting to my AI services right now. Please try again in a few minutes, or let me know if there's something else I can assist with." := by
  simp only [getFallbackResponse, if_neg hm]
  rw [if_pos (show jsToLower "audit" = "audit" by decide)]

/-- The `draft` branch of `getFallbackResponse` for a nonempty message. -/
theorem fb_eq_draft (m : String) (hm : ¬(m = "" ∨ jsTrim m = "")) :
    getFallbackResponse m "draft" =
      "I'd be happy to help draft content related to \"" ++ shortUserMessage m ++ "\", but I'm currently experiencing connection issues with my AI services. Please try again shortly, or let me know if there's another way I can help." := by
  simp only [getFallbackResponse, if_neg hm]
  rw [if_neg (show ¬ jsToLower "draft" = "audit" by decide),
    if_pos (show jsToLower "draft" = "draft" by decide)]

/-- The `reminder` branch of `getFallbackResponse`. -/
theorem fb_eq_reminder (m : String) (hm : ¬(m = "" ∨ jsTrim m = "")) :
    getFallbackResponse m "reminder" =
      "I'd like to help you set a reminder for \"" ++ shortUserMessage m ++ "\", but I'm having trouble accessing my AI capabilities at the moment. Please try again soon, or feel free to ask for assistance with something else." := by
  simp only [getFallbackResponse, if_neg hm]
  rw [if_neg (show ¬ jsToLower "reminder" = "audit" by decide),
    if_neg (show ¬ jsToLower "reminder" = "draft" by decide),
    if_pos (show jsToLower "reminder" = "reminder" by decide)]

/-- The `direct` branch of `getFallbackResponse`. -/
theorem fb_eq_direct (m : String) (hm : ¬(m = "" ∨ jsTrim m = "")) :
    getFallbackResponse m "direct" =
      "Thanks for your message about \"" ++ shortUserMessage m ++ "\". I'm currently having trouble connecting to my AI services. Please try again in a few minutes, or let me know if there's something else I can help with." := by
  simp only [getFallbackResponse, if_neg hm]
  rw [if_neg (show ¬ jsToLower "direct" = "audit" by decide),
    if_neg (show ¬ jsToLower "direct" = "draft" by decide),
    if_neg (show ¬ jsToLower "direct" = "reminder" by decide),
    if_pos (show jsToLower "direct" = "direct" by decide)]

/-- The `mention` branch of `getFallbackResponse`. -/
theorem fb_eq_mention (m : String) (hm : ¬(m = "" ∨ jsTrim m = "")) :
    getFallbackResponse m "mention" =
      "I noticed you mentioned me regarding \"" ++ shortUserMessage m ++ "\". I'm currently experiencing some technical difficulties with my AI capabilities. Please try again shortly, or let me know if there's another way I can assist you." := by
  simp only [getFallbackResponse, if_neg hm]
  rw [if_neg (show ¬ jsToLower "mention" = "audit" by decide),
    if_neg (show ¬ jsToLower "mention" = "draft" by decide),
    if_neg (show ¬ jsToLower "mention" = "reminder" by decide),
    if_neg (show ¬ jsToLower "mention" = "direct" by decide),
    if_pos (show jsToLower "mention" = "mention" by decide)]

/-- The default branch of `getFallbackResponse` (tag `message`). -/
theorem fb_eq_message (m : String) (hm : ¬(m = "" ∨ jsTrim m = "")) :
    getFallbackResponse m "message" =
      "I'd like to help with your request about \"" ++ shortUserMessage m ++ "\", but I'm having trouble connecting to my AI services right now. Please try again in a few minutes, or let me know if there's something else I can assist with." := by
  simp only [getFallbackResponse, if_neg hm]
  rw [if_neg (show ¬ jsToLower "message" = "audit" by decide),
    if_neg (show ¬ jsToLower "message" = "draft" by decide),
    if_neg (show ¬ jsToLower "message" = "reminder" by decide),
    if_neg (show ¬ jsToLower "message" = "direct" by decide),
    if_neg (show ¬ jsToLower "message" = "mention" by decide)]

/-- The first 22 characters of each tag's fallback are a fixed template
prefix, independent of the message. -/
theorem fb_take22 (m : String) (hm : ¬(m = "" ∨ jsTrim m = "")) :
    (getFallbackResponse m "audit").data.take 22 = "I'd like to help you a".data ∧
    (getFallbackResponse m "draft").data.take 22 = "I'd be happy to help d".data ∧
    (getFallbackResponse m "reminder").data.take 22 = "I'd like to help you s".data ∧
    (getFallbackResponse m "direct").data.take 22 = "Thanks for your messag".data ∧
    (getFallbackResponse m "mention").data.take 22 = "I noticed you mentione".data ∧
    (getFallbackResponse m "message").data.take 22 = "I'd like to help with ".data := by
  refine ⟨?_, ?_, ?_, ?_, ?_, ?_⟩
  · rw [fb_eq_audit m hm]
    rw [String.data_append, String.data_append, List.append_assoc,
      List.take_append_of_le_length (by decide)]
    decide
  · rw [fb_eq_draft m hm]
    rw [String.data_append, String.data_append, List.append_assoc,
      List.take_append_of_le_length (by decide)]
    decide
  · rw [fb_eq_reminder m hm]
    rw [String.data_append, String.data_append, List.append_assoc,
      List.take_append_of_le_length (by decide)]
    decide
  · rw [fb_eq_direct m hm]
    rw [String.data_append, String.data_append, List.append_assoc,
      List.take_append_of_le_length (by decide)]
    decide
  · rw [fb_eq_mention m hm]
    rw [String.data_append, String.data_append, List.append_assoc,
      List.take_append_of_le_length (by decide)]
    decide
  · rw [fb_eq_message m hm]
    rw [String.data_append, String.data_append, List.append_assoc,
      List.take_append_of_le_length (by decide)]
    decide

/-- C2: for every task tag and every non-whitespace prompt, when both
the streaming and the non-streaming OpenAI requests fail,
`getAIResponse` returns (it is total — never throws) the task-tagged
fallback string after exactly the two failed requests, marking the API
unavailable; the fallback is non-empty, contains verbatim a prefix of
the original prompt (its first five space-separated words), and is
specific to the task tag: the six tags produce pairwise distinct
fallback strings. -/
theorem C2_fallback_on_failure (st : ApiStatus) (now : Int) (e₁ e₂ : String)
    (prompt tag : String) (hp : jsTrim prompt ≠ "") :
    getAIResponse st now (.error e₁) (.error e₂) prompt tag =
      ⟨getFallbackResponse prompt tag,
       ⟨false, st.attempts + 1, st.successes, some now, st.lastSuccess, some e₂⟩,
       2⟩ ∧
    getFallbackResponse prompt tag ≠ "" ∧
    (∃ rest, (firstFiveWords prompt).data ++ rest = prompt.data) ∧
    containsSub (firstFiveWords prompt).data
      (getFallbackResponse prompt tag).data = true ∧
    (∀ t₁ t₂, t₁ ∈ canonicalTags → t₂ ∈ canonicalTags → t₁ ≠ t₂ →
      getFallbackResponse prompt t₁ ≠ getFallbackResponse prompt t₂) := by
  have hm : ¬(prompt = "" ∨ jsTrim prompt = "") := by
    rintro (h | h)
    · exact hp (by rw [h]; rfl)
    · exact hp h
  refine ⟨?_, ?_, ?_, ?_, ?_⟩
  · unfold getAIResponse
    rw [if_neg hm]
  · simp only [getFallbackResponse, if_neg hm]
    split_ifs <;> exact str_shape_ne_empty _ _ _ (by decide)
  · obtain ⟨rest, hrest⟩ := joinSpace_take_pre (splitSpace prompt.data) 5
    refine ⟨rest, ?_⟩
    rw [show (firstFiveWords prompt).data =
      joinSpace ((splitSpace prompt.data).take 5) from rfl, hrest,
      joinSpace_splitSpace]
  · simp only [getFallbackResponse, if_neg hm]
    split_ifs <;>
      exact str_shape_contains _ _ (firstFiveWords prompt)
        (if (splitSpace prompt.data).length > 5 then "..." else "")
  · obtain ⟨ha, hd, hr, hdi, hme, hms⟩ := fb_take22 prompt hm
    intro t₁ t₂ h₁ h₂ hne12
    fin_cases h₁ <;> fin_cases h₂ <;>
      first
      | exact absurd rfl hne12
      | · apply ne_of_take_ne _ _ 22
          simp only [ha, hd, hr, hdi, hme, hms]
          decide

/-- C2, witness: a concrete prompt and tag under double failure yield
the draft-tagged fallback, which embeds the prompt's first five words
and is non-empty. -/
theorem C2_fallback_on_failure_witness :
    getAIResponse ⟨true, 0, 0, none, none, none⟩ 5 (.error "e1") (.error "e2")
      "please draft the quarterly status email" "draft" =
      ⟨getFallbackResponse "please draft the quarterly status email" "draft",
       ⟨false, 1, 0, some 5, none, some "e2"⟩, 2⟩ ∧
    getFallbackResponse "please draft the quarterly status email" "draft" ≠ "" ∧
    containsSub (firstFiveWords "please draft the quarterly status email").data
      (getFallbackResponse "please draft the quarterly status email" "draft").data =
      true := by
  have h := C2_fallback_on_failure ⟨true, 0, 0, none, none, none⟩ 5 "e1" "e2"
    "please draft the quarterly status email" "draft" (by decide)
  exact ⟨h.1, h.2.1, h.2.2.2.1⟩

/-! ### C3: (non-)idempotence of the markdown cleanup

Each pass is the identity on text containing none of its trigger
characters; on such text the whole pipeline is the identity, so the
cleanup is idempotent there.  In general it is not: a cleanup pass can
shorten the text until the one-character-per-line heuristic of a second
run fires (see the counterexample). -/

/-- `headIs` implies membership. -/
theorem headIs_mem {c : Char} : ∀ {l : List Char}, headIs c l = true → c ∈ l := by
  intro l h
  cases l with
  | nil => simp [headIs] at h
  | cons d t =>
    simp only [headIs, decide_eq_true_eq] at h
    exact h ▸ List.mem_cons_self d t

/-- Step 1 is the identity on newline-free text. -/
theorem verticalFix_clean (l : List Char) (h : '\n' ∉ l) : verticalFix l = l := by
  unfold verticalFix
  split_ifs with hc
  · exact List.filter_eq_self.mpr fun a ha => by
      simp only [decide_eq_true_eq]
      exact fun he => h (he ▸ ha)
  · rfl

/-- Step 2 is the identity on bar-free text (the marker starts with a
bar), for every fuel. -/
theorem replaceMarkerGo_clean :
    ∀ (f : ℕ) (l : List Char), '|' ∉ l →
      replaceAllGo markerChars ['\n', '\n'] f l = l := by
  intro f
  induction f with
  | zero => intro l _; rfl
  | succ f ih =>
    intro l h
    cases l with
    | nil => rfl
    | cons c t =>
      have hc : c ≠ '|' := fun he => h (he ▸ List.mem_cons_self c t)
      simp only [replaceAllGo]
      rw [if_neg, ih t (fun hm => h (List.mem_cons_of_mem c hm))]
      rintro ⟨-, hpre⟩
      rw [List.isPrefixOf_iff_prefix,
        show markerChars = '|' :: "|PARAGRAPH||".data from rfl,
        List.cons_prefix_cons] at hpre
      exact hc hpre.1.symm

/-- Step 2 wrapper is the identity on bar-free text. -/
theorem markerFix_clean (l : List Char) (h : '|' ∉ l) : markerFix l = l :=
  replaceMarkerGo_clean l.length l h

/-- Step 3 is the identity on newline-free text. -/
theorem newlineRunGo_clean :
    ∀ (f : ℕ) (l : List Char), '\n' ∉ l → newlineRunGo f l = l := by
  intro f
  induction f with
  | zero => intro l _; rfl
  | succ f ih =>
    intro l h
    cases l with
    | nil => rfl
    | cons c t =>
      have hc : c ≠ '\n' := fun he => h (he ▸ List.mem_cons_self c t)
      simp only [newlineRunGo, if_neg hc]
      rw [ih t (fun hm => h (List.mem_cons_of_mem c hm))]

/-- Step 3 wrapper. -/
theorem newlineRunFix_clean (l : List Char) (h : '\n' ∉ l) :
    newlineRunFix l = l := newlineRunGo_clean l.length l h

/-- Step 4 is the identity on newline-free text. -/
theorem blankRunGo_clean :
    ∀ (f : ℕ) (l : List Char), '\n' ∉ l → blankRunGo f l = l := by
  intro f
  induction f with
  | zero => intro l _; rfl
  | succ f ih =>
    intro l h
    cases l with
    | nil => rfl
    | cons c t =>
      have hc : c ≠ '\n' := fun he => h (he ▸ List.mem_cons_self c t)
      simp only [blankRunGo, if_neg hc]
      rw [ih t (fun hm => h (List.mem_cons_of_mem c hm))]

/-- Step 4 wrapper. -/
theorem blankRunFix_clean (l : List Char) (h : '\n' ∉ l) :
    blankRunFix l = l := blankRunGo_clean l.length l h

/-- Step 5 is the identity on asterisk-free text. -/
theorem boldGo_clean :
    ∀ (f : ℕ) (l : List Char), '*' ∉ l → boldGo f l = l := by
  intro f
  induction f with
  | zero => intro l _; rfl
  | succ f ih =>
    intro l h
    cases l with
    | nil => rfl
    | cons c t =>
      have hc : c ≠ '*' := fun he => h (he ▸ List.mem_cons_self c t)
      simp only [boldGo]
      rw [if_neg (fun hand => hc hand.1), ih t (fun hm => h (List.mem_cons_of_mem c hm))]

/-- Step 5 wrapper. -/
theorem boldFix_clean (l : List Char) (h : '*' ∉ l) : boldFix l = l :=
  boldGo_clean l.length l h

/-- Step 6 is the identity on asterisk-free text. -/
theorem italGo_clean :
    ∀ (f : ℕ) (l : List Char), '*' ∉ l → italGo f l = l := by
  intro f
  induction f with
  | zero => intro l _; rfl
  | succ f ih =>
    intro l h
    cases l with
    | nil => rfl
    | cons c t =>
      have hc : c ≠ '*' := fun he => h (he ▸ List.mem_cons_self c t)
      simp only [italGo, if_neg hc]
      rw [ih t (fun hm => h (List.mem_cons_of_mem c hm))]

/-- Step 6 wrapper. -/
theorem italFix_clean (l : List Char) (h : '*' ∉ l) : italFix l = l :=
  italGo_clean l.length l h

/-- Step 7 is the identity on hyphen-free text. -/
theorem hyphenGo_clean :
    ∀ (f : ℕ) (l : List Char), '-' ∉ l → hyphenGo f l = l := by
  intro f
  induction f with
  | zero => intro l _; rfl
  | succ f ih =>
    intro l h
    cases l with
    | nil => rfl
    | cons c t =>
      have hc : c ≠ '-' := fun he => h (he ▸ List.mem_cons_self c t)
      simp only [hyphenGo, if_neg hc]
      rw [ih t (fun hm => h (List.mem_cons_of_mem c hm))]

/-- Step 7 wrapper. -/
theorem hyphenFix_clean (l : List Char) (h : '-' ∉ l) : hyphenFix l = l :=
  hyphenGo_clean l.length l h

/-- Step 8 is the identity on hash-free text, for every `^` flag. -/
theorem headerGo_clean :
    ∀ (f : ℕ) (b : Bool) (l : List Char), '#' ∉ l → headerGo f b l = l := by
  intro f
  induction f with
  | zero => intro b l _; rfl
  | succ f ih =>
    intro b l h
    cases l with
    | nil => rfl
    | cons c t =>
      have hc : c ≠ '#' := fun he => h (he ▸ List.mem_cons_self c t)
      simp only [headerGo]
      rw [if_neg (fun hand => hc hand.2), ih _ t (fun hm => h (List.mem_cons_of_mem c hm))]

/-- Step 8 wrapper. -/
theorem headerFix_clean (l : List Char) (h : '#' ∉ l) : headerFix l = l :=
  headerGo_clean l.length true l h

/-- Step 9 is the identity on hyphen-free text, for every `^` flag. -/
theorem bulletGo_clean :
    ∀ (f : ℕ) (b : Bool) (l : List Char), '-' ∉ l → bulletGo f b l = l := by
  intro f
  induction f with
  | zero => intro b l _; rfl
  | succ f ih =>
    intro b l h
    cases l with
    | nil => rfl
    | cons c t =>
      have ht : '-' ∉ t := fun hm => h (List.mem_cons_of_mem c hm)
      simp only [bulletGo]
      by_cases hb : b = true
      · subst hb
        rw [if_pos rfl, if_neg, ih _ t ht]
        rintro ⟨hdash, -⟩
        exact h (List.drop_subset _ _ (headIs_mem hdash))
      · rw [if_neg hb, ih _ t ht]

/-- Step 9 wrapper. -/
theorem bulletFix_clean (l : List Char) (h : '-' ∉ l) : bulletFix l = l :=
  bulletGo_clean l.length true l h

/-- A list not containing `w` has no suffix starting with `w`. -/
theorem not_isPrefixOf_of_not_containsSub (w : List Char) :
    ∀ (t : List Char), containsSub w t = false → w.isPrefixOf t = false := by
  intro t h
  cases t with
  | nil =>
    cases w with
    | nil => simp [containsSub, dropAfterSub] at h
    | cons x xs => simp [List.isPrefixOf]
  | cons c t =>
    rw [containsSub_cons] at h
    exact (Bool.or_eq_false_iff.mp h).1

/-- One structured-element pass is the identity when the element does
not occur. -/
theorem elemGo_clean (e : List Char) :
    ∀ (f : ℕ) (l : List Char), containsSub e l = false → elemGo e f l = l := by
  intro f
  induction f with
  | zero => intro l _; rfl
  | succ f ih =>
    intro l h
    cases l with
    | nil => rfl
    | cons c t =>
      rw [containsSub_cons] at h
      obtain ⟨-, ht⟩ := Bool.or_eq_false_iff.mp h
      simp only [elemGo]
      rw [if_neg, ih t ht]
      rintro ⟨-, hpre⟩
      rw [not_isPrefixOf_of_not_containsSub e t ht] at hpre
      exact Bool.false_ne_true hpre

/-- The structured-elements fold is the identity when none occurs. -/
theorem foldl_elemGo_clean :
    ∀ (es : List (List Char)) (l : List Char),
      (∀ e ∈ es, containsSub e l = false) →
      es.foldl (fun acc e => elemGo e acc.length acc) l = l := by
  intro es
  induction es with
  | nil => intro l _; rfl
  | cons e es ih =>
    intro l h
    simp only [List.foldl_cons]
    rw [elemGo_clean e l.length l (h e (List.mem_cons_self e es))]
    exact ih l fun e₁ he₁ => h e₁ (List.mem_cons_of_mem e he₁)

/-- Step 11 wrapper. -/
theorem elemsFix_clean (l : List Char)
    (h : ∀ e ∈ structuredElements, containsSub e l = false) : elemsFix l = l :=
  foldl_elemGo_clean structuredElements l h

/-- On text free of newlines, asterisks, hyphens, hashes, bars and the
salutation keywords, and already trimmed, the whole cleanup pipeline is
the identity. -/
theorem cleanupList_clean (l : List Char)
    (hnl : '\n' ∉ l) (hst : '*' ∉ l) (hdash : '-' ∉ l) (hhash : '#' ∉ l)
    (hbar : '|' ∉ l)
    (helems : ∀ e ∈ structuredElements, containsSub e l = false)
    (htrim : jsTrimList l = l) : cleanupList l = l := by
  unfold cleanupList numberedListFix
  rw [verticalFix_clean l hnl, markerFix_clean l hbar, newlineRunFix_clean l hnl,
    blankRunFix_clean l hnl, boldFix_clean l hst, italFix_clean l hst,
    hyphenFix_clean l hdash, headerFix_clean l hhash, bulletFix_clean l hdash,
    elemsFix_clean l helems, htrim]

/-- C3, counterexample: `cleanupMarkdown` is not idempotent.  On
`"**a**\n**b**\n**c**"` the first pass strips the bold markers, giving
`"a\nb\nc"`; that output is short enough that a second pass's
one-character-per-line heuristic fires and joins the lines into
`"abc"`, so running the cleanup twice differs from running it once. -/
theorem C3_cleanup_not_idempotent :
    cleanupMarkdown (cleanupMarkdown "**a**\n**b**\n**c**") ≠
      cleanupMarkdown "**a**\n**b**\n**c**" := by
  decide

/-- C3 (amended): `cleanupMarkdown` is idempotent on already-plain
text — any trimmed string containing no newline, asterisk, hyphen,
hash or bar and none of the structured-element keywords is a fixed
point, so cleaning it twice equals cleaning it once; for arbitrary
strings idempotence fails (see the counterexample: a pass can shorten
the text until the second run's line-join heuristic fires). -/
theorem C3_cleanup_idempotent_on_plain (s : String)
    (hnl : '\n' ∉ s.data) (hst : '*' ∉ s.data) (hdash : '-' ∉ s.data)
    (hhash : '#' ∉ s.data) (hbar : '|' ∉ s.data)
    (helems : ∀ e ∈ structuredElements, containsSub e s.data = false)
    (htrim : jsTrimList s.data = s.data) :
    cleanupMarkdown (cleanupMarkdown s) = cleanupMarkdown s := by
  have hfix : cleanupMarkdown s = s := by
    unfold cleanupMarkdown
    by_cases hs : s = ""
    · rw [if_pos hs]
    · rw [if_neg hs,
        cleanupList_clean s.data hnl hst hdash hhash hbar helems htrim]
  rw [hfix]
  exact hfix

/-- C3, witness: a plain sentence is a fixed point of the cleanup. -/
theorem C3_cleanup_idempotent_on_plain_witness :
    cleanupMarkdown (cleanupMarkdown "hello world.") =
      cleanupMarkdown "hello world." :=
  C3_cleanup_idempotent_on_plain "hello world." (by decide) (by decide)
    (by decide) (by decide) (by decide) (by decide) (by decide)
